import Mathlib

/-! Shallow embedding of the ai-dev-console vendor-abstraction layer
(model registry, conversation data model, vendor adapters, streaming
consumer and CLI entry point), together with theorems checking the
repository's specification against the embedded code.

Conventions: Python `Decimal` values are modelled as rationals (the
operations the registry performs on them here are exact), machine
integers as `Int`, raised exceptions as the `Except.error` branch of an
`Except PyError` result, and `None`-able attributes as `Option`. -/

namespace AiDevConsole

/-- Exceptions raised by the embedded code (`ValueError`, `IndexError`,
`AttributeError` in the source). -/
inductive PyError where
  | valueError (msg : String)
  | indexError (msg : String)
  | attributeError (msg : String)
deriving DecidableEq, Repr

/-- `Vendor` enumeration from `vendor.py`. -/
inductive Vendor where
  | anthropic
  | aws
  | openai
deriving DecidableEq, Repr

/-- The `value` attribute of a `Vendor` member. -/
def Vendor.value : Vendor → String
  | .anthropic => "anthropic"
  | .aws => "aws"
  | .openai => "openai"

/-- Python `dict.get`: the value stored for `k`, treating the association
list as an insertion-ordered dictionary with distinct keys. -/
def dictGet {κ α : Type} [DecidableEq κ] (k : κ) : List (κ × α) → Option α
  | [] => none
  | p :: rest => if p.1 = k then some p.2 else dictGet k rest

/-- `ModelCosts` from `model.py`: USD cost per million input/output tokens. -/
structure ModelCosts where
  input_cost_per_million_tokens : ℚ
  output_cost_per_million_tokens : ℚ
deriving DecidableEq, Repr

/-- Dataclass construction of `ModelCosts` including its `__post_init__`
validation: negative costs raise `ValueError`. -/
def ModelCosts.construct (input_cost output_cost : ℚ) : Except PyError ModelCosts :=
  if input_cost < 0 then Except.error (PyError.valueError "Input cost cannot be negative")
  else if output_cost < 0 then Except.error (PyError.valueError "Output cost cannot be negative")
  else Except.ok ⟨input_cost, output_cost⟩

/-- Rounding to an integer with ties to the even neighbour: the default
`ROUND_HALF_EVEN` mode `Decimal.quantize` uses in the source. -/
def roundHalfEven (q : ℚ) : ℤ :=
  if q - q.floor < 1/2 then q.floor
  else if 1/2 < q - q.floor then q.floor + 1
  else if q.floor % 2 = 0 then q.floor else q.floor + 1

/-- `Decimal.quantize(Decimal("0.00001"))`: the nearest multiple of 10^-5,
ties to even. -/
def quantize5 (q : ℚ) : ℚ := (roundHalfEven (q * 100000) : ℚ) / 100000

/-- `ModelCosts.calculate_cost`: rejects negative token counts, otherwise
`(input·in_cost/10^6 + output·out_cost/10^6)` quantized to five decimal
places. -/
def ModelCosts.calculate_cost (c : ModelCosts) (input_tokens output_tokens : ℤ) :
    Except PyError ℚ :=
  if input_tokens < 0 ∨ output_tokens < 0 then
    Except.error (PyError.valueError "Token counts cannot be negative")
  else
    Except.ok (quantize5
      ((input_tokens : ℚ) * c.input_cost_per_million_tokens / 1000000
        + (output_tokens : ℚ) * c.output_cost_per_million_tokens / 1000000))

/-- `AIModel` from `model.py` (the `training_cutoff` datetime is kept as a
year/month/day triple). -/
structure AIModel where
  name : String
  vendor : Vendor
  costs : ModelCosts
  context_window : ℤ
  max_output_tokens : ℤ
  supports_vision : Bool
  supports_message_batches : Bool
  training_cutoff : ℕ × ℕ × ℕ
  description : String
  comparative_latency : String
  vendor_model_id : Option String := none
deriving DecidableEq, Repr

/-- `ModelMapping`: one canonical name bound to its per-vendor wire ids. -/
structure ModelMapping where
  canonical_name : String
  vendor_ids : List (Vendor × String)
deriving DecidableEq, Repr

/-- `SupportedModels._model_mappings` (values in dict insertion order). -/
def model_mappings : List ModelMapping :=
  [ { canonical_name := "claude-3-7-sonnet-20250219",
      vendor_ids := [(Vendor.anthropic, "claude-3-7-sonnet-20250219"),
                     (Vendor.aws, "anthropic.claude-3-7-sonnet-20250219-v1:0")] },
    { canonical_name := "claude-3-haiku-20240307",
      vendor_ids := [(Vendor.anthropic, "claude-3-haiku-20240307"),
                     (Vendor.aws, "anthropic.claude-3-haiku-20240307-v1:0")] },
    { canonical_name := "claude-3-5-sonnet-20241022",
      vendor_ids := [(Vendor.anthropic, "claude-3-5-sonnet-20241022"),
                     (Vendor.aws, "anthropic.claude-3-5-sonnet-20240620-v1:0")] } ]

/-- `SupportedModels._models_requiring_inference_profiles`. -/
def models_requiring_inference_profiles : List String :=
  ["claude-3-7-sonnet-20250219"]

/-- `SupportedModels._models_by_vendor`: the static catalog, in dict
insertion order. -/
def models_by_vendor : List (String × List (Vendor × AIModel)) :=
  [ ("claude-3-7-sonnet-20250219",
      [ (Vendor.aws,
          { name := "claude-3-7-sonnet-20250219", vendor := Vendor.aws,
            costs := ⟨3, 15⟩, context_window := 200000,
            max_output_tokens := 64000, supports_vision := true,
            supports_message_batches := true, training_cutoff := (2025, 2, 19),
            description := "Our most expressive model",
            comparative_latency := "Fastest" }),
        (Vendor.anthropic,
          { name := "claude-3-7-sonnet-20250219", vendor := Vendor.anthropic,
            costs := ⟨4, 20⟩, context_window := 200000,
            max_output_tokens := 8192, supports_vision := true,
            supports_message_batches := true, training_cutoff := (2025, 2, 19),
            description := "Our most expressive model",
            comparative_latency := "Fast" }) ]),
    ("claude-3-5-sonnet-20241022",
      [ (Vendor.aws,
          { name := "claude-3-5-sonnet-20241022", vendor := Vendor.aws,
            costs := ⟨3, 15⟩, context_window := 200000,
            max_output_tokens := 8192, supports_vision := true,
            supports_message_batches := true, training_cutoff := (2024, 4, 1),
            description := "Our most intelligent model",
            comparative_latency := "Fast" }),
        (Vendor.anthropic,
          { name := "claude-3-5-sonnet-20241022", vendor := Vendor.anthropic,
            costs := ⟨3, 15⟩, context_window := 200000,
            max_output_tokens := 8192, supports_vision := true,
            supports_message_batches := true, training_cutoff := (2024, 4, 1),
            description := "Our most intelligent model",
            comparative_latency := "Fast" }) ]),
    ("claude-3-haiku-20240307",
      [ (Vendor.anthropic,
          { name := "claude-3-haiku-20240307", vendor := Vendor.anthropic,
            costs := ⟨1, 5⟩, context_window := 200000,
            max_output_tokens := 8192, supports_vision := false,
            supports_message_batches := true, training_cutoff := (2024, 7, 1),
            description := "Our fastest model",
            comparative_latency := "Fastest" }),
        (Vendor.aws,
          { name := "claude-3-haiku-20240307", vendor := Vendor.aws,
            costs := ⟨1, 5⟩, context_window := 200000,
            max_output_tokens := 8192, supports_vision := false,
            supports_message_batches := true, training_cutoff := (2024, 7, 1),
            description := "Our fastest model",
            comparative_latency := "Fastest" }) ]) ]

/-- `SupportedModels.available_models`: per name, the Anthropic variant when
available, otherwise the first variant. -/
def available_models : List (String × AIModel) :=
  models_by_vendor.filterMap (fun p =>
    match dictGet Vendor.anthropic p.2 with
    | some m => some (p.1, m)
    | none => p.2.head?.map (fun q => (p.1, q.2)))

/-- `SupportedModels.get_vendor_model_id`: mapping lookup first, then the
flat-catalog fallback, raising `ValueError` otherwise. -/
def get_vendor_model_id (model_name : String) (vendor : Vendor) : Except PyError String :=
  match model_mappings.find? (fun m => m.canonical_name == model_name) with
  | some mapping =>
    match dictGet vendor mapping.vendor_ids with
    | some vid => Except.ok vid
    | none => Except.error (PyError.valueError
        ("Model '" ++ model_name ++ "' not supported for vendor " ++ vendor.value))
  | none =>
    match dictGet model_name available_models with
    | some model =>
      if model.vendor = vendor then Except.ok model_name
      else Except.error (PyError.valueError
        ("No mapping found for model '" ++ model_name ++ "' and vendor " ++ vendor.value))
    | none => Except.error (PyError.valueError
        ("No mapping found for model '" ++ model_name ++ "' and vendor " ++ vendor.value))

/-- `SupportedModels.resolve_model_id`: passthrough when `model_id` is
already a registered vendor-specific id for `vendor`, else delegate. -/
def resolve_model_id (model_id : String) (vendor : Vendor) : Except PyError String :=
  if model_mappings.any (fun m => dictGet vendor m.vendor_ids == some model_id) then
    Except.ok model_id
  else
    get_vendor_model_id model_id vendor

/-- `SupportedModels.requires_inference_profile`. -/
def requires_inference_profile (model_name : String) : Bool :=
  models_requiring_inference_profiles.contains model_name

/-- `SupportedModels.get_inference_profile_arn`. -/
def get_inference_profile_arn (model_name region account_id : String) :
    Except PyError String :=
  if requires_inference_profile model_name = false then
    Except.error (PyError.valueError
      ("Model '" ++ model_name ++ "' does not require an inference profile"))
  else
    (get_vendor_model_id model_name Vendor.aws).map (fun model_id =>
      "arn:aws:bedrock:" ++ region ++ ":" ++ account_id ++ ":inference-profile/"
        ++ region.take 2 ++ "." ++ model_id)

/-- `Role` enumeration from `client/types.py`. -/
inductive Role where
  | user
  | assistant
  | system
deriving DecidableEq, Repr

/-- The `value` attribute of a `Role` member. -/
def Role.value : Role → String
  | .user => "user"
  | .assistant => "assistant"
  | .system => "system"

/-- The `image` payload a `ContentBlock` carries in the source: a dict with
a `media_type` and base64 `data`. -/
structure ImagePayload where
  media_type : String
  data : String
deriving DecidableEq, Repr

/-- `ContentBlock` from `client/types.py`: nullable `text`, `image` and
`document` fields, at most one populated by convention (the `document`
payload is opaque to every code path the claims touch and is kept as a
string). -/
structure ContentBlock where
  text : Option String := none
  image : Option ImagePayload := none
  document : Option String := none
deriving DecidableEq, Repr

/-- `Message` from `client/types.py`. -/
structure Message where
  role : Role
  content : List ContentBlock
deriving DecidableEq, Repr

/-- Python truthiness of an optional string: `None` and `""` are falsy. -/
def strTruthy : Option String → Bool
  | some s => !s.isEmpty
  | none => false

/-- `InferenceConfiguration` from `client/types.py`, with the source's
field defaults (`max_tokens` defaults to 500). -/
structure InferenceConfiguration where
  temperature : Option ℚ := none
  top_p : Option ℚ := none
  max_tokens : Option ℤ := some 500
  stop_sequences : Option (List String) := none
deriving DecidableEq, Repr

/-- The temperature clause of `InferenceConfiguration.validate`. -/
def checkTemperature (c : InferenceConfiguration) : Except PyError Unit :=
  match c.temperature with
  | some t =>
    if ¬(0 ≤ t ∧ t ≤ 1) then
      Except.error (PyError.valueError "Temperature must be between 0 and 1")
    else Except.ok ()
  | none => Except.ok ()

/-- The top_p clause of `InferenceConfiguration.validate`. -/
def checkTopP (c : InferenceConfiguration) : Except PyError Unit :=
  match c.top_p with
  | some p =>
    if ¬(0 ≤ p ∧ p ≤ 1) then
      Except.error (PyError.valueError "Top P must be between 0 and 1")
    else Except.ok ()
  | none => Except.ok ()

/-- The max_tokens clause of `InferenceConfiguration.validate`: positivity
first, then the 8192 cap. -/
def checkMaxTokens (c : InferenceConfiguration) : Except PyError Unit :=
  match c.max_tokens with
  | some m =>
    if m ≤ 0 then Except.error (PyError.valueError "Max tokens must be positive")
    else if 8192 < m then Except.error (PyError.valueError "Max tokens cannot exceed 8192")
    else Except.ok ()
  | none => Except.ok ()

/-- `InferenceConfiguration.validate`: the clauses run in source order and
the first failure raises. The source's trailing `stop_sequences` clause
only checks `isinstance` facts that the typed embedding makes vacuous. -/
def InferenceConfiguration.validate (c : InferenceConfiguration) : Except PyError Unit :=
  match checkTemperature c with
  | Except.error e => Except.error e
  | Except.ok _ =>
    match checkTopP c with
    | Except.error e => Except.error e
    | Except.ok _ => checkMaxTokens c

/-- `ConverseRequest` from `client/types.py`: exactly the fields the
dataclass declares. -/
structure ConverseRequest where
  model_id : String
  messages : List Message
  system : Option String := none
  inference_config : Option InferenceConfiguration := none
deriving DecidableEq, Repr

/-- `ConverseRequest` construction including `__post_init__`: a missing
inference configuration is replaced by the default one, and the resulting
configuration is validated immediately (a failure raises out of
construction). -/
def ConverseRequest.construct (model_id : String) (messages : List Message)
    (system : Option String) (inference_config : Option InferenceConfiguration) :
    Except PyError ConverseRequest :=
  (inference_config.getD {}).validate.map fun _ =>
    ⟨model_id, messages, system, some (inference_config.getD {})⟩

/-- The per-message content check of `ConverseRequest.validate`: the first
message with empty content raises. -/
def checkMessagesContent : List Message → Except PyError Unit
  | [] => Except.ok ()
  | m :: rest =>
    if m.content.isEmpty then
      Except.error (PyError.valueError "Each message must have content")
    else checkMessagesContent rest

/-- `ConverseRequest.validate` from `client/types.py`. -/
def ConverseRequest.validate (r : ConverseRequest) : Except PyError Unit :=
  if r.model_id.isEmpty then Except.error (PyError.valueError "Model ID is required")
  else if r.messages.isEmpty then
    Except.error (PyError.valueError "At least one message is required")
  else
    match checkMessagesContent r.messages with
    | Except.error e => Except.error e
    | Except.ok _ =>
      match r.inference_config with
      | some cfg => cfg.validate
      | none => Except.ok ()

/-- Typed wire content block of the direct Anthropic API request format
(`{"type": "text", ...}` or `{"type": "image", "source": {"type":
"base64", ...}}`). -/
inductive AnthropicContentBlock where
  | text (text : String)
  | image (media_type : String) (data : String)
deriving DecidableEq, Repr

/-- Wire content of one Anthropic message: a bare string or a list of
typed blocks. -/
inductive AnthropicContent where
  | str (s : String)
  | blocks (l : List AnthropicContentBlock)
deriving DecidableEq, Repr

/-- One wire message of the Anthropic request format. -/
structure AnthropicMessage where
  role : String
  content : AnthropicContent
deriving DecidableEq, Repr

/-- The typed wire blocks one neutral `ContentBlock` contributes in the
list branch of `AnthropicAdapter.adapt_request`: its text when truthy,
then its image when truthy, in that order. -/
def anthropicBlockPieces (block : ContentBlock) : List AnthropicContentBlock :=
  (if strTruthy block.text then [AnthropicContentBlock.text (block.text.getD "")] else [])
    ++ (match block.image with
        | some img => [AnthropicContentBlock.image img.media_type img.data]
        | none => [])

/-- The content field `AnthropicAdapter.adapt_request` emits for one
message: collapsed to the bare string when the message has exactly one
content block whose text is truthy and whose image is absent, otherwise
the typed-block list. -/
def anthropicMessageContent (content : List ContentBlock) : AnthropicContent :=
  match content with
  | [block] =>
    if strTruthy block.text && block.image.isNone then
      AnthropicContent.str (block.text.getD "")
    else AnthropicContent.blocks (content.flatMap anthropicBlockPieces)
  | _ => AnthropicContent.blocks (content.flatMap anthropicBlockPieces)

/-- The per-message translation of `AnthropicAdapter.adapt_request`
(lines 58-93 of `client/adapters.py`). -/
def anthropicAdaptMessage (msg : Message) : AnthropicMessage :=
  { role := msg.role.value, content := anthropicMessageContent msg.content }

/-- The attribute names the `ConverseRequest` dataclass in
`client/types.py` declares: its complete field list. -/
def converseRequestFields : List String :=
  ["model_id", "messages", "system", "inference_config"]

/-- The `request.<attribute>` reads `AnthropicAdapter.adapt_request`
performs on its `ConverseRequest` argument in `client/adapters.py`, in
source order; the last two are executed unconditionally
(`if request.thinking_enabled:` on line 124 runs on every call). -/
def anthropicAdaptRequestReads : List String :=
  ["model_id", "messages", "inference_config", "system", "thinking_enabled",
   "thinking_budget"]

/-- The `request.<attribute>` reads `AWSAdapter.adapt_request` performs on
its `ConverseRequest` argument in `client/adapters.py`, in source order
(`request.thinking_enabled` on line 222 runs on every call). -/
def awsAdaptRequestReads : List String :=
  ["messages", "model_id", "system", "inference_config", "thinking_enabled",
   "thinking_budget"]

/-- One wire event of the managed-gateway (AWS Bedrock) streaming
protocol, as the generator inside `AWSClient.converse_stream` reads it.
Each field models the presence of the corresponding key of the event
dict: `messageStart` carries the new role, `contentBlockDelta` carries
the delta's optional `text` entry, `messageComplete` carries the
message's content blocks reduced to their optional
`reasoningContent.reasoningText.text` payloads, and the five exception
keys carry their `message` texts. -/
structure StreamEvent where
  messageStart : Option String := none
  contentBlockDelta : Option (Option String) := none
  messageComplete : Option (List (Option String)) := none
  internalServerException : Option String := none
  modelStreamErrorException : Option String := none
  validationException : Option String := none
  throttlingException : Option String := none
  serviceUnavailableException : Option String := none
deriving DecidableEq, Repr

/-- The message of the first of the five named error keys present in an
event, checked in the source's fixed order. -/
def eventError (e : StreamEvent) : Option String :=
  match e.internalServerException with
  | some m => some m
  | none =>
    match e.modelStreamErrorException with
    | some m => some m
    | none =>
      match e.validationException with
      | some m => some m
      | none =>
        match e.throttlingException with
        | some m => some m
        | none => e.serviceUnavailableException

/-- Terminal outcome of the streaming generator: normal completion with
the accumulated text and captured thinking, or a raised
`ModelClientError` message. -/
inductive StreamOutcome where
  | completed (full_text : String) (thinking : Option String)
  | raised (msg : String)
deriving DecidableEq, Repr

/-- The thinking captured after a `messageComplete` event: the last
reasoning text among its content blocks when one exists, otherwise the
running value. -/
def updateThinking (blocks : List (Option String)) (thinking : Option String) :
    Option String :=
  match (blocks.filterMap id).getLast? with
  | some t => some t
  | none => thinking

/-- The event loop of the generator in `AWSClient.converse_stream`: from
the running current role, accumulated text and captured thinking, the
texts yielded in arrival order and the terminal outcome. A `messageStart`
event updates the role and skips the rest of the body (`continue`); while
the role is not assistant every other event is skipped; a delta with
non-empty text is yielded and accumulated; `messageComplete` may capture
thinking; and only then are the five error keys checked, the first
present one raising. -/
def processEvents : List StreamEvent → Option String → String → Option String →
    List String × StreamOutcome
  | [], _, fullText, thinking => ([], StreamOutcome.completed fullText thinking)
  | e :: rest, role, fullText, thinking =>
    match e.messageStart with
    | some r => processEvents rest (some r) fullText thinking
    | none =>
      if role ≠ some "assistant" then processEvents rest role fullText thinking
      else
        let ys : List String :=
          match e.contentBlockDelta with
          | some (some t) => if t.isEmpty then [] else [t]
          | _ => []
        let fullText2 : String :=
          match e.contentBlockDelta with
          | some (some t) => if t.isEmpty then fullText else fullText ++ t
          | _ => fullText
        let thinking2 : Option String :=
          match e.messageComplete with
          | some blocks => updateThinking blocks thinking
          | none => thinking
        match eventError e with
        | some m => (ys, StreamOutcome.raised ("AWS Bedrock error: " ++ m))
        | none =>
          let res := processEvents rest role fullText2 thinking2
          (ys ++ res.1, res.2)

/-- Event dict with only `{"messageStart": {"role": r}}`. -/
def mkMessageStart (r : String) : StreamEvent := { messageStart := some r }

/-- Event dict with only `{"contentBlockDelta": {"delta": {"text": t}}}`. -/
def mkDelta (t : String) : StreamEvent := { contentBlockDelta := some (some t) }

/-- Event dict with only `{"internalServerException": {"message": m}}`. -/
def mkInternalServerError (m : String) : StreamEvent :=
  { internalServerException := some m }

/-- Event dict with only `{"modelStreamErrorException": {"message": m}}`. -/
def mkModelStreamError (m : String) : StreamEvent :=
  { modelStreamErrorException := some m }

/-- Event dict with only `{"validationException": {"message": m}}`. -/
def mkValidationError (m : String) : StreamEvent :=
  { validationException := some m }

/-- Event dict with only `{"throttlingException": {"message": m}}`. -/
def mkThrottlingError (m : String) : StreamEvent :=
  { throttlingException := some m }

/-- Event dict with only `{"serviceUnavailableException": {"message": m}}`. -/
def mkServiceUnavailableError (m : String) : StreamEvent :=
  { serviceUnavailableException := some m }

/-- The five named error events carrying message `m`, in the order the
source's error loop checks their keys. -/
def namedErrorEvents (m : String) : List StreamEvent :=
  [mkInternalServerError m, mkModelStreamError m, mkValidationError m,
   mkThrottlingError m, mkServiceUnavailableError m]

/-- `ConverseResponse` from `client/types.py`; the `usage` and `metrics`
mappings are opaque to every code path the claims touch and are kept as
association lists of integers. -/
structure ConverseResponse where
  messages : List Message
  stop_reason : Option String := none
  usage : Option (List (String × ℤ)) := none
  metrics : Option (List (String × ℤ)) := none
deriving DecidableEq, Repr

/-- What Python `print` writes for a nullable text (`None` prints as the
string "None"). -/
def printedText : Option String → String
  | some s => s
  | none => "None"

/-- The `str(e)` message of an embedded exception. -/
def PyError.str : PyError → String
  | .valueError m => m
  | .indexError m => m
  | .attributeError m => m

/-- Observable effect of one CLI run: what reached stdout and stderr and
the process exit code `main` returns. -/
structure CliResult where
  stdout : Option String
  stderr : Option String
  exit_code : ℤ
deriving DecidableEq, Repr

/-- The success-path emission of the CLI `main` in `cli/prompt/main.py`:
`print(response.messages[-1].content[0].text)` — Python indexing on an
empty list raises `IndexError`. -/
def cliEmit (resp : ConverseResponse) : Except PyError String :=
  match resp.messages.getLast? with
  | none => Except.error (PyError.indexError "list index out of range")
  | some m =>
    match m.content.head? with
    | none => Except.error (PyError.indexError "list index out of range")
    | some b => Except.ok (printedText b.text)

/-- The tail of the CLI `main` from the converse call on: the converse
outcome (an error value models the exception the call raised), then the
emission. Any exception is caught by the single top-level handler, which
prints `Error: <message>` to stderr and returns 1; a successful emission
goes to stdout and `main` returns 0. -/
def cliMain (outcome : Except String ConverseResponse) : CliResult :=
  match outcome with
  | Except.error msg =>
    { stdout := none, stderr := some ("Error: " ++ msg), exit_code := 1 }
  | Except.ok resp =>
    match cliEmit resp with
    | Except.ok line => { stdout := some line, stderr := none, exit_code := 0 }
    | Except.error e =>
      { stdout := none, stderr := some ("Error: " ++ e.str), exit_code := 1 }

/-- The first response message's first text — the emission the spec's CLI
contract describes. -/
def firstMessageText (resp : ConverseResponse) : Option String :=
  resp.messages.head?.bind fun m => m.content.head?.bind fun b => b.text

/-- A successful two-message response whose first and last messages carry
different texts. -/
def twoMessageResponse : ConverseResponse :=
  { messages := [ { role := Role.assistant, content := [{ text := some "A" }] },
                  { role := Role.assistant, content := [{ text := some "B" }] } ] }

/-- Bridge between the executable `Rat.floor` and the `Int.floor` notation
`norm_num` computes with. -/
theorem rat_floor_eq_intFloor (q : ℚ) : q.floor = ⌊q⌋ :=
  (Rat.floor_def' q).trans Rat.floor_def.symm

/-- C1: `resolve_model_id` is an idempotent front door: when `id` already
equals a registered mapping's vendor-specific id for `vendor` it is returned
unchanged, otherwise the call delegates to `get_vendor_model_id`; in
particular the canonical haiku name resolves to the AWS id, and the AWS id
passes through unchanged. -/
theorem resolve_model_id_spec :
    (∀ (vendor : Vendor) (id : String),
      ((∃ m ∈ model_mappings, dictGet vendor m.vendor_ids = some id) →
          resolve_model_id id vendor = Except.ok id) ∧
      ((¬ ∃ m ∈ model_mappings, dictGet vendor m.vendor_ids = some id) →
          resolve_model_id id vendor = get_vendor_model_id id vendor)) ∧
    resolve_model_id "claude-3-haiku-20240307" Vendor.aws =
      Except.ok "anthropic.claude-3-haiku-20240307-v1:0" ∧
    resolve_model_id "anthropic.claude-3-haiku-20240307-v1:0" Vendor.aws =
      Except.ok "anthropic.claude-3-haiku-20240307-v1:0" := by
  refine ⟨fun vendor id => ⟨fun h => ?_, fun h => ?_⟩, by rfl, by rfl⟩
  · have hany : (model_mappings.any fun m => dictGet vendor m.vendor_ids == some id)
        = true := by
      rw [List.any_eq_true]
      obtain ⟨m, hm, hid⟩ := h
      exact ⟨m, hm, by rw [hid]; exact beq_self_eq_true _⟩
    simp [resolve_model_id, hany]
  · have hany : (model_mappings.any fun m => dictGet vendor m.vendor_ids == some id)
        = false := by
      cases hcase : model_mappings.any fun m => dictGet vendor m.vendor_ids == some id
      · rfl
      · exfalso
        rw [List.any_eq_true] at hcase
        obtain ⟨m, hm, hb⟩ := hcase
        exact h ⟨m, hm, eq_of_beq hb⟩
    simp [resolve_model_id, hany]

/-- Witness for C1 at a concrete input with the passthrough test failing:
the canonical 3-5-sonnet name is no AWS wire id, so the call delegates. -/
theorem resolve_model_id_spec_witness :
    resolve_model_id "claude-3-5-sonnet-20241022" Vendor.aws
      = get_vendor_model_id "claude-3-5-sonnet-20241022" Vendor.aws :=
  (resolve_model_id_spec.1 Vendor.aws "claude-3-5-sonnet-20241022").2 (by decide)

/-- C3: `get_inference_profile_arn` fails with `ValueError` for every model
name outside the fixed profile-requiring set; for every name in that set,
region of length at least two and account id, it returns exactly the
documented fixed layout built from the region, its two-character prefix, the
account id and the AWS vendor-specific model id. -/
theorem get_inference_profile_arn_spec :
    (∀ name region account_id : String, requires_inference_profile name = false →
      get_inference_profile_arn name region account_id = Except.error (PyError.valueError
        ("Model '" ++ name ++ "' does not require an inference profile"))) ∧
    (∀ name region account_id : String, name ∈ models_requiring_inference_profiles →
      2 ≤ region.length →
      ∃ vid, get_vendor_model_id name Vendor.aws = Except.ok vid ∧
        get_inference_profile_arn name region account_id = Except.ok
          ("arn:aws:bedrock:" ++ region ++ ":" ++ account_id ++ ":inference-profile/"
            ++ region.take 2 ++ "." ++ vid)) := by
  constructor
  · intro name region account_id h
    simp [get_inference_profile_arn, h]
  · intro name region account_id hmem _hlen
    have hname : name = "claude-3-7-sonnet-20250219" := by
      simpa [models_requiring_inference_profiles] using hmem
    subst hname
    refine ⟨"anthropic.claude-3-7-sonnet-20250219-v1:0", by rfl, ?_⟩
    have hreq : requires_inference_profile "claude-3-7-sonnet-20250219" = true := by rfl
    simp only [get_inference_profile_arn, hreq]
    rfl

/-- Witness for C3 at the spec's concrete inputs: the flagged model,
region `eu-central-1` and account `123456789`. -/
theorem get_inference_profile_arn_spec_witness :
    ∃ vid, get_vendor_model_id "claude-3-7-sonnet-20250219" Vendor.aws = Except.ok vid ∧
      get_inference_profile_arn "claude-3-7-sonnet-20250219" "eu-central-1" "123456789"
        = Except.ok ("arn:aws:bedrock:" ++ "eu-central-1" ++ ":" ++ "123456789"
            ++ ":inference-profile/" ++ String.take "eu-central-1" 2 ++ "." ++ vid) :=
  get_inference_profile_arn_spec.2 "claude-3-7-sonnet-20250219" "eu-central-1" "123456789"
    (by decide) (by decide)

/-- The cost table of the spec's cost-calculation example,
`ModelCosts(0.25, 1.25)`. -/
def exampleCosts : ModelCosts :=
  { input_cost_per_million_tokens := 0.25, output_cost_per_million_tokens := 1.25 }

/-- C8: with costs 0.25/1.25 per million tokens, 1000+1000 tokens cost
exactly 0.00150 and 1,000,000+1,000,000 tokens exactly 1.50000 (five-place
quantization of exact decimal arithmetic); negative token counts make
`calculate_cost` raise, and negative constructor costs make construction
raise. -/
theorem calculate_cost_spec :
    ModelCosts.construct 0.25 1.25 = Except.ok exampleCosts ∧
    exampleCosts.calculate_cost 1000 1000 = Except.ok 0.0015 ∧
    exampleCosts.calculate_cost 1000000 1000000 = Except.ok 1.5 ∧
    (∀ (c : ModelCosts) (i o : ℤ), i < 0 ∨ o < 0 →
      c.calculate_cost i o =
        Except.error (PyError.valueError "Token counts cannot be negative")) ∧
    (∀ ic oc : ℚ, ic < 0 ∨ oc < 0 →
      ∃ msg, ModelCosts.construct ic oc = Except.error (PyError.valueError msg)) := by
  refine ⟨?_, ?_, ?_, ?_, ?_⟩
  · simp only [ModelCosts.construct, exampleCosts]
    norm_num
  · simp only [ModelCosts.calculate_cost, exampleCosts, quantize5, roundHalfEven,
      rat_floor_eq_intFloor]
    norm_num
  · simp only [ModelCosts.calculate_cost, exampleCosts, quantize5, roundHalfEven,
      rat_floor_eq_intFloor]
    norm_num
  · intro c i o h
    simp only [ModelCosts.calculate_cost]
    rw [if_pos h]
  · intro ic oc h
    by_cases hic : ic < 0
    · exact ⟨"Input cost cannot be negative", by simp [ModelCosts.construct, hic]⟩
    · have hoc : oc < 0 := h.resolve_left hic
      exact ⟨"Output cost cannot be negative", by simp [ModelCosts.construct, hic, hoc]⟩

/-- Witness for C8 discharging the negative-input hypotheses at concrete
inputs: `calculate_cost(-1, 100)` raises and `ModelCosts(-0.25, 1.25)`
cannot be constructed. -/
theorem calculate_cost_spec_witness :
    exampleCosts.calculate_cost (-1) 100
        = Except.error (PyError.valueError "Token counts cannot be negative") ∧
    ∃ msg, ModelCosts.construct (-0.25) 1.25 = Except.error (PyError.valueError msg) :=
  ⟨calculate_cost_spec.2.2.2.1 exampleCosts (-1) 100 (Or.inl (by norm_num)),
    calculate_cost_spec.2.2.2.2 (-0.25) 1.25 (Or.inl (by norm_num))⟩

/-- An `Except PyError Unit` value is the success `ok ()` or some error. -/
theorem exceptUnit_ok_or_error (x : Except PyError Unit) :
    x = Except.ok () ∨ ∃ e, x = Except.error e := by
  cases x with
  | error e => exact Or.inr ⟨e, rfl⟩
  | ok u => cases u; exact Or.inl rfl

/-- Raising and succeeding are complementary for `Except PyError Unit`. -/
theorem exceptUnit_error_iff (x : Except PyError Unit) :
    (∃ e, x = Except.error e) ↔ x ≠ Except.ok () := by
  constructor
  · rintro ⟨e, rfl⟩ h
    exact Except.noConfusion h
  · intro h
    rcases exceptUnit_ok_or_error x with hok | he
    · exact absurd hok h
    · exact he

/-- The temperature clause succeeds exactly on in-range (or unset) values. -/
theorem checkTemperature_ok_iff (c : InferenceConfiguration) :
    checkTemperature c = Except.ok () ↔ ∀ t ∈ c.temperature, 0 ≤ t ∧ t ≤ 1 := by
  cases h : c.temperature with
  | none => simp [checkTemperature, h]
  | some t =>
    simp only [checkTemperature, h]
    by_cases ht : 0 ≤ t ∧ t ≤ 1
    · rw [if_neg (not_not_intro ht)]
      simp [ht]
    · rw [if_pos ht]
      simp [ht]

/-- The top_p clause succeeds exactly on in-range (or unset) values. -/
theorem checkTopP_ok_iff (c : InferenceConfiguration) :
    checkTopP c = Except.ok () ↔ ∀ p ∈ c.top_p, 0 ≤ p ∧ p ≤ 1 := by
  cases h : c.top_p with
  | none => simp [checkTopP, h]
  | some p =>
    simp only [checkTopP, h]
    by_cases hp : 0 ≤ p ∧ p ≤ 1
    · rw [if_neg (not_not_intro hp)]
      simp [hp]
    · rw [if_pos hp]
      simp [hp]

/-- The max_tokens clause succeeds exactly on values in (0, 8192]. -/
theorem checkMaxTokens_ok_iff (c : InferenceConfiguration) :
    checkMaxTokens c = Except.ok () ↔ ∀ m ∈ c.max_tokens, 0 < m ∧ m ≤ 8192 := by
  cases h : c.max_tokens with
  | none => simp [checkMaxTokens, h]
  | some m =>
    simp only [checkMaxTokens, h]
    by_cases h1 : m ≤ 0
    · rw [if_pos h1]
      simp
      omega
    · rw [if_neg h1]
      by_cases h2 : 8192 < m
      · rw [if_pos h2]
        simp
        omega
      · rw [if_neg h2]
        simp
        omega

/-- `InferenceConfiguration.validate` succeeds exactly when all three
clauses do. -/
theorem validate_eq_ok_iff_clauses (c : InferenceConfiguration) :
    c.validate = Except.ok () ↔
      checkTemperature c = Except.ok () ∧ checkTopP c = Except.ok () ∧
        checkMaxTokens c = Except.ok () := by
  unfold InferenceConfiguration.validate
  cases h1 : checkTemperature c with
  | error e => simp [h1]
  | ok u =>
    cases u
    cases h2 : checkTopP c with
    | error e => simp [h2]
    | ok u => cases u; simp

/-- C5: `InferenceConfiguration.validate` succeeds exactly when every set
field lies in its documented range (`temperature`, `top_p` in [0,1],
`max_tokens` in (0,8192], unset fields skipped), and raises a `ValueError`
whenever some set field is out of range. -/
theorem inference_configuration_validate_spec :
    ∀ c : InferenceConfiguration,
      (c.validate = Except.ok () ↔
        ((∀ t ∈ c.temperature, 0 ≤ t ∧ t ≤ 1) ∧ (∀ p ∈ c.top_p, 0 ≤ p ∧ p ≤ 1) ∧
          ∀ m ∈ c.max_tokens, 0 < m ∧ m ≤ 8192)) ∧
      ((∃ e, c.validate = Except.error e) ↔
        ¬((∀ t ∈ c.temperature, 0 ≤ t ∧ t ≤ 1) ∧ (∀ p ∈ c.top_p, 0 ≤ p ∧ p ≤ 1) ∧
          ∀ m ∈ c.max_tokens, 0 < m ∧ m ≤ 8192)) := by
  intro c
  have hok : c.validate = Except.ok () ↔
      ((∀ t ∈ c.temperature, 0 ≤ t ∧ t ≤ 1) ∧ (∀ p ∈ c.top_p, 0 ≤ p ∧ p ≤ 1) ∧
        ∀ m ∈ c.max_tokens, 0 < m ∧ m ≤ 8192) := by
    rw [validate_eq_ok_iff_clauses, checkTemperature_ok_iff, checkTopP_ok_iff,
      checkMaxTokens_ok_iff]
  exact ⟨hok, by rw [exceptUnit_error_iff, ← hok]⟩

/-- The content check succeeds exactly when no message has empty content. -/
theorem checkMessagesContent_ok_iff (l : List Message) :
    checkMessagesContent l = Except.ok () ↔ ∀ m ∈ l, m.content ≠ [] := by
  induction l with
  | nil => simp [checkMessagesContent]
  | cons m rest ih =>
    simp only [checkMessagesContent]
    by_cases hm : m.content.isEmpty
    · rw [if_pos hm]
      simp [List.isEmpty_iff.mp hm]
    · rw [if_neg hm]
      rw [ih]
      simp [List.forall_mem_cons, List.isEmpty_iff] at hm ⊢
      simp [hm]

/-- C4: `ConverseRequest.validate` succeeds exactly on requests with a
non-empty model id, at least one message, no message with empty content and
a passing (or absent) inference configuration, and raises a `ValueError`
exactly when one of those conditions fails (the check mutates nothing: it
is a pure function of the request). -/
theorem converse_request_validate_spec :
    ∀ r : ConverseRequest,
      (r.validate = Except.ok () ↔
        (r.model_id ≠ "" ∧ r.messages ≠ [] ∧ (∀ m ∈ r.messages, m.content ≠ []) ∧
          ∀ cfg ∈ r.inference_config, cfg.validate = Except.ok ())) ∧
      ((∃ e, r.validate = Except.error e) ↔
        ¬(r.model_id ≠ "" ∧ r.messages ≠ [] ∧ (∀ m ∈ r.messages, m.content ≠ []) ∧
          ∀ cfg ∈ r.inference_config, cfg.validate = Except.ok ())) := by
  intro r
  have hok : r.validate = Except.ok () ↔
      (r.model_id ≠ "" ∧ r.messages ≠ [] ∧ (∀ m ∈ r.messages, m.content ≠ []) ∧
        ∀ cfg ∈ r.inference_config, cfg.validate = Except.ok ()) := by
    unfold ConverseRequest.validate
    by_cases h1 : r.model_id.isEmpty
    · rw [if_pos h1]
      have hmid : r.model_id = "" := (String.isEmpty_iff _).mp h1
      constructor
      · intro hok
        exact Except.noConfusion hok
      · rintro ⟨hne, -, -, -⟩
        exact absurd hmid hne
    · rw [if_neg h1]
      by_cases h2 : r.messages.isEmpty
      · rw [if_pos h2]
        have hmsgs : r.messages = [] := List.isEmpty_iff.mp h2
        constructor
        · intro hok
          exact Except.noConfusion hok
        · rintro ⟨-, hne, -, -⟩
          exact absurd hmsgs hne
      · rw [if_neg h2]
        have h1' : r.model_id ≠ "" := fun he => h1 ((String.isEmpty_iff _).mpr he)
        have h2' : r.messages ≠ [] := fun he => h2 (List.isEmpty_iff.mpr he)
        cases h3 : checkMessagesContent r.messages with
        | error e =>
          have hnall : ¬∀ m ∈ r.messages, m.content ≠ [] := by
            rw [← checkMessagesContent_ok_iff, h3]
            simp
          constructor
          · intro hok
            exact Except.noConfusion hok
          · rintro ⟨-, -, h3', -⟩
            exact (hnall h3').elim
        | ok u =>
          cases u
          have h3' : ∀ m ∈ r.messages, m.content ≠ [] :=
            (checkMessagesContent_ok_iff r.messages).mp h3
          cases hc : r.inference_config with
          | none =>
            simp only [hc]
            constructor
            · intro _
              refine ⟨h1', h2', h3', ?_⟩
              intro c hcm
              simp at hcm
            · intro _
              trivial
          | some cfg =>
            simp only [hc]
            constructor
            · intro hv
              refine ⟨h1', h2', h3', ?_⟩
              intro c hcm
              rw [Option.mem_def, Option.some.injEq] at hcm
              rw [← hcm]
              exact hv
            · rintro ⟨-, -, -, hall⟩
              exact hall cfg rfl
  exact ⟨hok, by rw [exceptUnit_error_iff, ← hok]⟩

/-- The configuration `InferenceConfiguration()` built with every field
defaulted, as `__post_init__` builds it when none is supplied. -/
def defaultInferenceConfiguration : InferenceConfiguration := {}

/-- C10: dataclass construction of a `ConverseRequest` establishes the
invariant that `inference_config` is populated: an omitted configuration
becomes the default one (whose `max_tokens` is 500) and the stored
configuration is validated during construction, so an out-of-range
configuration raises before any later `validate` or converse call. -/
theorem converse_request_construct_spec :
    (∀ (mid : String) (msgs : List Message) (sys : Option String),
      ConverseRequest.construct mid msgs sys none =
        Except.ok { model_id := mid, messages := msgs, system := sys,
                    inference_config := some defaultInferenceConfiguration }) ∧
    defaultInferenceConfiguration.max_tokens = some 500 ∧
    (∀ (mid : String) (msgs : List Message) (sys : Option String)
        (cfg : Option InferenceConfiguration) (r : ConverseRequest),
      ConverseRequest.construct mid msgs sys cfg = Except.ok r →
      ∃ c, r.inference_config = some c ∧ c.validate = Except.ok ()) ∧
    (∀ (mid : String) (msgs : List Message) (sys : Option String)
        (cfg : InferenceConfiguration) (e : PyError),
      cfg.validate = Except.error e →
      ConverseRequest.construct mid msgs sys (some cfg) = Except.error e) := by
  refine ⟨fun mid msgs sys => by rfl, by rfl, ?_, ?_⟩
  · intro mid msgs sys cfg r h
    unfold ConverseRequest.construct at h
    cases hv : (cfg.getD {}).validate with
    | error e => rw [hv] at h; exact Except.noConfusion h
    | ok u =>
      cases u
      rw [hv] at h
      refine ⟨cfg.getD {}, ?_, hv⟩
      have : r = ⟨mid, msgs, sys, some (cfg.getD {})⟩ := by
        simpa [Except.map] using h.symm
      rw [this]
  · intro mid msgs sys cfg e h
    unfold ConverseRequest.construct
    simp only [Option.getD_some, h]
    rfl

/-- Witness for C10: constructing a request with `temperature = 2` raises
the temperature `ValueError` at construction time. -/
theorem converse_request_construct_spec_witness :
    ConverseRequest.construct "claude-3-haiku-20240307"
        [{ role := Role.user, content := [{ text := some "hi" }] }] none
        (some { temperature := some 2 }) =
      Except.error (PyError.valueError "Temperature must be between 0 and 1") :=
  converse_request_construct_spec.2.2.2 "claude-3-haiku-20240307"
    [{ role := Role.user, content := [{ text := some "hi" }] }] none
    { temperature := some 2 }
    (PyError.valueError "Temperature must be between 0 and 1")
    (by simp [InferenceConfiguration.validate, checkTemperature, checkTopP, checkMaxTokens])

/-- C7: the Anthropic adapter's message translation collapses a message
whose content is exactly one pure-text block (non-empty text, no image)
into a bare-string content field, and maps any message containing an image
block to a list of typed content blocks. -/
theorem anthropic_adapt_message_spec :
    (∀ (msg : Message) (b : ContentBlock) (t : String),
      msg.content = [b] → b.text = some t → t ≠ "" → b.image = none →
      anthropicAdaptMessage msg =
        { role := msg.role.value, content := AnthropicContent.str t }) ∧
    (∀ msg : Message, (∃ b ∈ msg.content, b.image ≠ none) →
      anthropicAdaptMessage msg =
        { role := msg.role.value,
          content := AnthropicContent.blocks
            (msg.content.flatMap anthropicBlockPieces) }) := by
  constructor
  · intro msg b t hc ht hne hi
    have htne : t.isEmpty = false :=
      Bool.eq_false_iff.mpr fun h => hne ((String.isEmpty_iff t).mp h)
    unfold anthropicAdaptMessage anthropicMessageContent
    rw [hc]
    simp [strTruthy, ht, hi, htne]
  · intro msg hex
    obtain ⟨b0, hb0, hib0⟩ := hex
    unfold anthropicAdaptMessage anthropicMessageContent
    cases hcl : msg.content with
    | nil => rfl
    | cons b rest =>
      cases rest with
      | nil =>
        rw [hcl] at hb0
        have hb : b0 = b := by simpa using hb0
        subst hb
        have himg : b0.image.isNone = false := by
          cases hbi : b0.image with
          | none => exact absurd hbi hib0
          | some i => rfl
        simp [himg]
      | cons b2 rest2 => rfl

/-- Witness for C7: a single pure-text message collapses to a bare string;
a text-plus-image message serializes to the typed-block list. -/
theorem anthropic_adapt_message_spec_witness :
    anthropicAdaptMessage { role := Role.user, content := [{ text := some "hello" }] }
      = { role := "user", content := AnthropicContent.str "hello" } ∧
    anthropicAdaptMessage
        { role := Role.user,
          content := [{ text := some "see" },
                      { image := some { media_type := "image/png", data := "QUJD" } }] }
      = { role := "user",
          content := AnthropicContent.blocks
            [AnthropicContentBlock.text "see",
             AnthropicContentBlock.image "image/png" "QUJD"] } := by
  constructor
  · exact anthropic_adapt_message_spec.1
      { role := Role.user, content := [{ text := some "hello" }] }
      { text := some "hello" } "hello" rfl rfl (by decide) rfl
  · rw [anthropic_adapt_message_spec.2
      { role := Role.user,
        content := [{ text := some "see" },
                    { image := some { media_type := "image/png", data := "QUJD" } }] }
      ⟨{ image := some { media_type := "image/png", data := "QUJD" } },
        by simp, by simp⟩]
    rfl

/-- C2 (code bug): both vendor adapters' `adapt_request` read
`thinking_enabled` and `thinking_budget` from every request, but the
`ConverseRequest` dataclass declares neither field, so the documented
defaults (false and 16000) exist nowhere in `types.py` and every
`adapt_request` call dereferences a missing attribute. -/
theorem thinking_fields_missing :
    "thinking_enabled" ∈ anthropicAdaptRequestReads ∧
    "thinking_budget" ∈ anthropicAdaptRequestReads ∧
    "thinking_enabled" ∈ awsAdaptRequestReads ∧
    "thinking_budget" ∈ awsAdaptRequestReads ∧
    "thinking_enabled" ∉ converseRequestFields ∧
    "thinking_budget" ∉ converseRequestFields := by
  decide

/-- With the role already assistant, a run of pure delta events yields
exactly its non-empty texts in arrival order and accumulates them all. -/
theorem processEvents_deltas (ts : List String) (ft : String) (th : Option String) :
    processEvents (ts.map mkDelta) (some "assistant") ft th
      = (ts.filter (fun t => !t.isEmpty),
         StreamOutcome.completed (ts.foldl (fun acc t => acc ++ t) ft) th) := by
  induction ts generalizing ft with
  | nil => rfl
  | cons t rest ih =>
    simp only [List.map_cons, List.filter_cons, List.foldl_cons]
    by_cases hte : t.isEmpty
    · have ht : t = "" := (String.isEmpty_iff t).mp hte
      subst ht
      simp [processEvents, mkDelta, eventError, hte, String.append_empty, ih ft]
    · have hte' : t.isEmpty = false := Bool.eq_false_iff.mpr hte
      simp [processEvents, mkDelta, eventError, hte', ih (ft ++ t)]

/-- With the role already assistant, a run of pure delta events followed
by any event whose first present error key carries message `m` (and which
sets no role and carries no delta itself) yields exactly the deltas'
non-empty texts and then raises with the provider's message, whatever
events follow. -/
theorem processEvents_deltas_then_error (ts : List String) (err : StreamEvent)
    (m : String) (rest : List StreamEvent) (ft : String) (th : Option String)
    (hms : err.messageStart = none) (hcd : err.contentBlockDelta = none)
    (herr : eventError err = some m) :
    processEvents (ts.map mkDelta ++ err :: rest) (some "assistant") ft th
      = (ts.filter (fun t => !t.isEmpty),
         StreamOutcome.raised ("AWS Bedrock error: " ++ m)) := by
  induction ts generalizing ft with
  | nil =>
    simp [processEvents, hms, hcd, herr]
  | cons t restts ih =>
    by_cases hte : t.isEmpty
    · have ht : t = "" := (String.isEmpty_iff t).mp hte
      subst ht
      simp [processEvents, mkDelta, eventError, hte, ih]
    · have hte' : t.isEmpty = false := Bool.eq_false_iff.mpr hte
      simp [processEvents, mkDelta, eventError, hte', ih]

/-- C6 (amended): the managed-gateway streaming consumer yields no text
(and raises nothing) while no `messageStart` event has set the current
role to assistant; once the role is assistant, `contentBlockDelta` events
with non-empty text are yielded in arrival order; any of the FIVE named
error events processed while the role is assistant terminates iteration
by raising a client error carrying the provider's message, after the
deltas already received and whatever events follow; in particular the
stream messageStart(assistant), two non-empty deltas, named error
delivers exactly the two texts and then the raise. -/
theorem aws_converse_stream_spec :
    (∀ (events : List StreamEvent) (role : Option String) (ft : String)
        (th : Option String),
      (∀ e ∈ events, e.messageStart ≠ some "assistant") →
      role ≠ some "assistant" →
      processEvents events role ft th = ([], StreamOutcome.completed ft th)) ∧
    (∀ (ts : List String) (ft : String) (th : Option String),
      processEvents (mkMessageStart "assistant" :: ts.map mkDelta) none ft th
        = (ts.filter (fun t => !t.isEmpty),
           StreamOutcome.completed (ts.foldl (fun acc t => acc ++ t) ft) th)) ∧
    (∀ (m : String) (err : StreamEvent), err ∈ namedErrorEvents m →
      ∀ (ts : List String) (rest : List StreamEvent) (ft : String)
        (th : Option String),
      processEvents (mkMessageStart "assistant" :: (ts.map mkDelta ++ err :: rest))
          none ft th
        = (ts.filter (fun t => !t.isEmpty),
           StreamOutcome.raised ("AWS Bedrock error: " ++ m))) ∧
    (∀ (t1 t2 m : String) (rest : List StreamEvent) (ft : String)
        (th : Option String),
      t1 ≠ "" → t2 ≠ "" →
      processEvents (mkMessageStart "assistant" :: mkDelta t1 :: mkDelta t2 ::
          mkInternalServerError m :: rest) none ft th
        = ([t1, t2], StreamOutcome.raised ("AWS Bedrock error: " ++ m))) := by
  refine ⟨?_, ?_, ?_, ?_⟩
  · intro events
    induction events with
    | nil => intro role ft th _ _; rfl
    | cons e rest ih =>
      intro role ft th hall hrole
      have he := hall e (List.mem_cons_self e rest)
      cases hms : e.messageStart with
      | some r =>
        simp only [processEvents, hms]
        rw [hms] at he
        refine ih (some r) ft th (fun x hx => hall x (List.mem_cons_of_mem e hx)) he
      | none =>
        simp only [processEvents, hms]
        rw [if_pos hrole]
        exact ih role ft th (fun x hx => hall x (List.mem_cons_of_mem e hx)) hrole
  · intro ts ft th
    simp only [processEvents, mkMessageStart]
    exact processEvents_deltas ts ft th
  · intro m err herr ts rest ft th
    simp only [namedErrorEvents, List.mem_cons, List.not_mem_nil, or_false] at herr
    have hstep : processEvents
        (mkMessageStart "assistant" :: (ts.map mkDelta ++ err :: rest)) none ft th
        = processEvents (ts.map mkDelta ++ err :: rest) (some "assistant") ft th := by
      rfl
    rw [hstep]
    rcases herr with h | h | h | h | h <;> subst h <;>
      exact processEvents_deltas_then_error ts _ m rest ft th rfl rfl rfl
  · intro t1 t2 m rest ft th h1 h2
    have h1' : t1.isEmpty = false :=
      Bool.eq_false_iff.mpr fun h => h1 ((String.isEmpty_iff t1).mp h)
    have h2' : t2.isEmpty = false :=
      Bool.eq_false_iff.mpr fun h => h2 ((String.isEmpty_iff t2).mp h)
    simp [processEvents, mkMessageStart, mkDelta, mkInternalServerError, eventError,
      h1', h2']

/-- Witness for C6: the spec's concrete scenario, and the general raising
clause exercised at a second error kind (a `throttlingException` after a
single delta). -/
theorem aws_converse_stream_spec_witness :
    processEvents [mkMessageStart "assistant", mkDelta "Hel", mkDelta "lo",
        mkInternalServerError "boom"] none "" none
      = (["Hel", "lo"], StreamOutcome.raised ("AWS Bedrock error: " ++ "boom")) ∧
    processEvents [mkMessageStart "assistant", mkDelta "Hi",
        mkThrottlingError "slow down"] none "" none
      = (["Hi"], StreamOutcome.raised ("AWS Bedrock error: " ++ "slow down")) := by
  constructor
  · exact aws_converse_stream_spec.2.2.2 "Hel" "lo" "boom" [] "" none
      (by decide) (by decide)
  · have h := aws_converse_stream_spec.2.2.1 "slow down"
      (mkThrottlingError "slow down") (by decide) ["Hi"] [] "" none
    simpa using h

/-- C6 counterexample: an `internalServerException` event that arrives
before any `messageStart` has set the role to assistant is silently
skipped — the stream completes normally with nothing yielded and no
raise, so a named error event is NOT always turned into a raised client
error as the claim states. -/
theorem stream_error_before_assistant_swallowed :
    processEvents [mkInternalServerError "boom"] none "" none
      = ([], StreamOutcome.completed "" none) := by
  rfl

/-- C9 (amended): on a successful invocation the CLI prompt tool emits the
LAST response message's first content text to stdout and exits with 0; on
any failure it exits 1 with `Error: <the failure's message>` on stderr. -/
theorem cli_main_spec :
    (∀ (resp : ConverseResponse) (ms : List Message) (m : Message)
        (b : ContentBlock) (bs : List ContentBlock),
      resp.messages = ms ++ [m] → m.content = b :: bs →
      cliMain (Except.ok resp)
        = { stdout := some (printedText b.text), stderr := none, exit_code := 0 }) ∧
    (∀ msg : String,
      cliMain (Except.error msg)
        = { stdout := none, stderr := some ("Error: " ++ msg), exit_code := 1 }) := by
  constructor
  · intro resp ms m b bs hms hmc
    simp [cliMain, cliEmit, hms, hmc, List.getLast?_concat]
  · intro msg
    rfl

/-- Witness for C9's amended contract: the two-message response prints the
last message's text with exit code 0, and a wrapped client failure exits 1
with the message on stderr. -/
theorem cli_main_spec_witness :
    cliMain (Except.ok twoMessageResponse)
      = { stdout := some (printedText (some "B")), stderr := none, exit_code := 0 } ∧
    cliMain (Except.error "Failed to process request: boom")
      = { stdout := none,
          stderr := some ("Error: " ++ "Failed to process request: boom"),
          exit_code := 1 } :=
  ⟨cli_main_spec.1 twoMessageResponse
      [{ role := Role.assistant, content := [{ text := some "A" }] }]
      { role := Role.assistant, content := [{ text := some "B" }] }
      { text := some "B" } [] rfl rfl,
   cli_main_spec.2 "Failed to process request: boom"⟩

/-- C9 counterexample: on the two-message response the first message's
text is "A" but the CLI emits "B" (the last message's text), so the CLI
does not emit the FIRST response message's text as claimed. -/
theorem cli_emits_last_not_first :
    firstMessageText twoMessageResponse = some "A" ∧
    cliMain (Except.ok twoMessageResponse)
      = { stdout := some "B", stderr := none, exit_code := 0 } ∧
    (cliMain (Except.ok twoMessageResponse)).stdout ≠ some "A" := by
  exact ⟨rfl, rfl, by decide⟩

end AiDevConsole
